import Mathlib

/-!
Verification of the item fetcher component (`src/node/src/components/fetcher.rs`)
of the casper-node repository.

The fetcher resolves "give me item X" requests from local storage or from a
remote peer.  Its state is a two-level responder table
`item_id -> peer_id -> Vec<responder>` (a `HashMap` of `HashMap`s of `Vec`s in
the source).  We model the hash maps as association lists with extensional
lookup/insert/erase operations (hash-map iteration order is unobservable, so an
association list that keeps per-bucket `Vec` order exact is a faithful model),
responders as opaque tokens, and the `Effects` collection returned by each
handler as an explicit list of effect descriptors.
-/

set_option linter.unusedSectionVars false

namespace CasperFetcher

/-- Association-list model of `HashMap`: lookup of the value stored at a key. -/
def alookup {κ ν : Type} [DecidableEq κ] : List (κ × ν) → κ → Option ν
  | [], _ => none
  | (k', v) :: rest, k => if k' = k then some v else alookup rest k

/-- Association-list model of `HashMap::remove`: drop the entry at a key. -/
def aerase {κ ν : Type} [DecidableEq κ] (m : List (κ × ν)) (k : κ) : List (κ × ν) :=
  m.filter (fun p => decide (p.1 ≠ k))

/-- Association-list model of `HashMap::insert`: replace the entry at a key. -/
def ainsert {κ ν : Type} [DecidableEq κ] (m : List (κ × ν)) (k : κ) (v : ν) : List (κ × ν) :=
  aerase m k ++ [(k, v)]

/-- The result of a fetch: either the item came from local storage, or from the
named peer (`FetchResult` in `fetcher/event.rs`). -/
inductive FetchResult (T NodeId : Type) : Type where
  | FromStorage (item : T)
  | FromPeer (item : T) (peer : NodeId)
  deriving DecidableEq

/-- Provenance of an inbound item (`utils::Source`): from a peer or a client. -/
inductive Source (NodeId : Type) : Type where
  | Peer (peer : NodeId)
  | Client
  deriving DecidableEq

/-- The fetcher's event alphabet (`fetcher::Event<T>`).  Responders are opaque
tokens of type `R`. -/
inductive Event (Id T NodeId R : Type) : Type where
  | Fetch (id : Id) (peer : NodeId) (responder : R)
  | GetFromStorageResult (id : Id) (peer : NodeId) (maybeItem : Option T)
  | GotRemotely (item : T) (source : Source NodeId)
  | AbsentRemotely (id : Id) (peer : NodeId)
  | TimeoutPeer (id : Id) (peer : NodeId)
  deriving DecidableEq

/-- One entry of the `Effects` collection a handler returns: responder
callbacks, the three storage requests the per-kind adapters issue,
a network send, and timer arming (which schedules `Event::TimeoutPeer`). -/
inductive FEffect (Id T NodeId R M : Type) : Type where
  | respond (responder : R) (result : Option (FetchResult T NodeId))
  | getDeploysFromStorage (batch : List Id) (peer : NodeId)
  | getBlockFromStorage (id : Id) (peer : NodeId)
  | getBlockAtHeight (height : Id) (peer : NodeId)
  | sendMessage (peer : NodeId) (message : M)
  | setTimeout (timeout : Nat) (id : Id) (peer : NodeId)
  deriving DecidableEq

/-- The responder table:
`HashMap<T::Id, HashMap<NodeId, Vec<FetchResponder<T>>>>`. -/
abbrev Table (Id NodeId R : Type) := List (Id × List (NodeId × List R))

variable {Id T NodeId R M ρ : Type}

/-- The `Vec` of responders registered under `(id, peer)` (empty when the
bucket or the outer entry is absent). -/
def bucketOf [DecidableEq Id] [DecidableEq NodeId]
    (s : Table Id NodeId R) (id : Id) (peer : NodeId) : List R :=
  (alookup ((alookup s id).getD []) peer).getD []

/-- `ItemFetcher::signal`: remove the outer entry for `id`; on `Some`, deliver
the (cloned) result to every responder in every peer bucket; on `None`, deliver
`None` only to the bucket of `peer` and reinsert the reduced inner mapping when
it is non-empty. -/
def signal [DecidableEq Id] [DecidableEq NodeId]
    (s : Table Id NodeId R) (id : Id) (result : Option (FetchResult T NodeId))
    (peer : NodeId) : Table Id NodeId R × List (FEffect Id T NodeId R M) :=
  let allResponders := (alookup s id).getD []
  let s1 := aerase s id
  match result with
  | some ret =>
      (s1, allResponders.flatMap fun pr => pr.2.map fun r => FEffect.respond r (some ret))
  | none =>
      let effs : List (FEffect Id T NodeId R M) :=
        match alookup allResponders peer with
        | some responders => responders.map fun r => FEffect.respond r none
        | none => []
      let remaining := aerase allResponders peer
      if remaining.isEmpty then (s1, effs) else (ainsert s1 id remaining, effs)

/-- `ItemFetcher::fetch`: push the responder onto `table[id][peer]` (creating
outer and inner entries on demand) and return the per-kind storage adapter's
effects (`get_from_storage`). -/
def fetch [DecidableEq Id] [DecidableEq NodeId]
    (s : Table Id NodeId R) (id : Id) (peer : NodeId) (responder : R)
    (getFromStorage : List (FEffect Id T NodeId R M)) :
    Table Id NodeId R × List (FEffect Id T NodeId R M) :=
  let inner := (alookup s id).getD []
  let bucket := (alookup inner peer).getD []
  (ainsert s id (ainsert inner peer (bucket ++ [responder])), getFromStorage)

/-- `ItemFetcher::got_from_storage`: a storage hit signals all responders for
the item's own id with `FromStorage`. -/
def got_from_storage [DecidableEq Id] [DecidableEq NodeId] (itemId : T → Id)
    (s : Table Id NodeId R) (item : T) (peer : NodeId) :
    Table Id NodeId R × List (FEffect Id T NodeId R M) :=
  signal s (itemId item) (some (FetchResult.FromStorage item)) peer

/-- `ItemFetcher::failed_to_get_from_storage`: on storage miss, construct a
`GetRequest` wire message (`mk`, which may fail); on success send it to the
peer and arm the peer timeout; on failure signal `None` to the peer's bucket. -/
def failed_to_get_from_storage [DecidableEq Id] [DecidableEq NodeId]
    (mk : Id → Option M) (timeout : Nat)
    (s : Table Id NodeId R) (id : Id) (peer : NodeId) :
    Table Id NodeId R × List (FEffect Id T NodeId R M) :=
  match mk id with
  | some message =>
      (s, [FEffect.sendMessage peer message, FEffect.setTimeout timeout id peer])
  | none => signal s id none peer

/-- `Fetcher::handle_event` (the `Component` impl): dispatch one event.
`gfs` is the per-kind storage adapter (`get_from_storage`), `mk` the wire
message constructor, `rng` the unused `_rng` argument. -/
def handle_event [DecidableEq Id] [DecidableEq NodeId] (itemId : T → Id)
    (gfs : Id → NodeId → List (FEffect Id T NodeId R M))
    (mk : Id → Option M) (timeout : Nat) (_rng : ρ)
    (s : Table Id NodeId R) (e : Event Id T NodeId R) :
    Table Id NodeId R × List (FEffect Id T NodeId R M) :=
  match e with
  | Event.Fetch id peer responder => fetch s id peer responder (gfs id peer)
  | Event.GetFromStorageResult id peer maybeItem =>
      match maybeItem with
      | some item => got_from_storage itemId s item peer
      | none => failed_to_get_from_storage mk timeout s id peer
  | Event.GotRemotely item source =>
      match source with
      | Source.Peer peer =>
          signal s (itemId item) (some (FetchResult.FromPeer item peer)) peer
      | Source.Client => (s, [])
  | Event.AbsentRemotely id peer => signal s id none peer
  | Event.TimeoutPeer id peer => signal s id none peer

/-- The `Deploy` adapter's storage request: a batched get-deploys query with a
single-element batch (`get_deploys_from_storage(smallvec![id])`). -/
def deployGetFromStorage (id : Id) (peer : NodeId) : List (FEffect Id T NodeId R M) :=
  [FEffect.getDeploysFromStorage [id] peer]

/-- The `Block` adapter's storage request (`get_block_from_storage(id)`). -/
def blockGetFromStorage (id : Id) (peer : NodeId) : List (FEffect Id T NodeId R M) :=
  [FEffect.getBlockFromStorage id peer]

/-- The `BlockByHeight` adapter's storage request (`get_block_at_height(id)`). -/
def blockByHeightGetFromStorage (id : Id) (peer : NodeId) :
    List (FEffect Id T NodeId R M) :=
  [FEffect.getBlockAtHeight id peer]

/-- `Vec::pop`: remove and return the last element; `None` when empty (then the
source's `expect("can only contain one result")` panics). -/
def vecPop (l : List α) : Option α := l.getLast?

/-- The `Deploy` adapter's result continuation: pop the single element of the
returned sequence and fold it into `Event::GetFromStorageResult`; `none` models
the `expect` panic on an empty result vector. -/
def deployStorageResultToEvent (id : Id) (peer : NodeId) (results : List (Option T)) :
    Option (Event Id T NodeId R) :=
  (vecPop results).map fun maybeItem => Event.GetFromStorageResult id peer maybeItem

/-- Run a sequence of events through `handle_event`, threading the table and
concatenating all emitted effects. -/
def run [DecidableEq Id] [DecidableEq NodeId] (itemId : T → Id)
    (gfs : Id → NodeId → List (FEffect Id T NodeId R M))
    (mk : Id → Option M) (timeout : Nat) (rng : ρ)
    (s : Table Id NodeId R) : List (Event Id T NodeId R) →
    Table Id NodeId R × List (FEffect Id T NodeId R M)
  | [] => (s, [])
  | e :: rest =>
      let step := handle_event itemId gfs mk timeout rng s e
      let tail := run itemId gfs mk timeout rng step.1 rest
      (tail.1, step.2 ++ tail.2)

/-! ### Association-list lemmas -/

theorem alookup_nil {κ ν : Type} [DecidableEq κ] (k : κ) :
    alookup ([] : List (κ × ν)) k = none := rfl

theorem alookup_aerase_self {κ ν : Type} [DecidableEq κ] (m : List (κ × ν)) (k : κ) :
    alookup (aerase m k) k = none := by
  induction m with
  | nil => rfl
  | cons p rest ih =>
      by_cases h : p.1 = k
      · simpa [aerase, List.filter_cons, h] using ih
      · simpa [aerase, List.filter_cons, h, alookup] using ih

theorem alookup_aerase_ne {κ ν : Type} [DecidableEq κ] (m : List (κ × ν)) (k k' : κ)
    (h : k' ≠ k) : alookup (aerase m k) k' = alookup m k' := by
  induction m with
  | nil => rfl
  | cons p rest ih =>
      by_cases hp : p.1 = k
      · have hp' : ¬ p.1 = k' := by rw [hp]; exact fun hc => h hc.symm
        rw [show aerase (p :: rest) k = aerase rest k by
              simp [aerase, List.filter_cons, hp]]
        rw [ih, show alookup (p :: rest) k' = alookup rest k' by simp [alookup, hp']]
      · rw [show aerase (p :: rest) k = p :: aerase rest k by
              simp [aerase, List.filter_cons, hp]]
        by_cases hk' : p.1 = k'
        · simp [alookup, hk']
        · simp only [alookup, if_neg hk']
          exact ih

theorem alookup_append {κ ν : Type} [DecidableEq κ] (l1 l2 : List (κ × ν)) (k : κ) :
    alookup (l1 ++ l2) k = ((alookup l1 k).rec (alookup l2 k) fun v => some v) := by
  induction l1 with
  | nil => rfl
  | cons p rest ih =>
      by_cases hp : p.1 = k
      · simp [alookup, hp]
      · simpa [alookup, hp] using ih

theorem alookup_ainsert_self {κ ν : Type} [DecidableEq κ] (m : List (κ × ν)) (k : κ) (v : ν) :
    alookup (ainsert m k v) k = some v := by
  rw [ainsert, alookup_append, alookup_aerase_self]
  simp [alookup]

theorem alookup_ainsert_ne {κ ν : Type} [DecidableEq κ] (m : List (κ × ν)) (k k' : κ) (v : ν)
    (h : k' ≠ k) : alookup (ainsert m k v) k' = alookup m k' := by
  rw [ainsert, alookup_append, show alookup [(k, v)] k' = none by
        have hkk : ¬ k = k' := fun hc => h hc.symm
        simp [alookup, hkk]]
  rw [alookup_aerase_ne m k k' h]
  cases alookup m k' <;> rfl

theorem aerase_eq_self_of_alookup_none {κ ν : Type} [DecidableEq κ] (m : List (κ × ν)) (k : κ)
    (h : alookup m k = none) : aerase m k = m := by
  induction m with
  | nil => rfl
  | cons p rest ih =>
      by_cases hp : p.1 = k
      · simp [alookup, hp] at h
      · simp [alookup, hp] at h
        simp [aerase, List.filter_cons, hp] at *
        exact ih h

theorem mem_of_alookup_eq_some {κ ν : Type} [DecidableEq κ] {m : List (κ × ν)} {k : κ} {v : ν}
    (h : alookup m k = some v) : (k, v) ∈ m := by
  induction m with
  | nil => simp [alookup] at h
  | cons p rest ih =>
      by_cases hp : p.1 = k
      · simp [alookup, hp] at h
        have hpv : p = (k, v) := Prod.ext_iff.mpr ⟨hp, h⟩
        exact List.mem_cons.mpr (Or.inl hpv.symm)
      · simp [alookup, hp] at h
        exact List.mem_cons.mpr (Or.inr (ih h))

theorem mem_aerase {κ ν : Type} [DecidableEq κ] {m : List (κ × ν)} {k : κ} {p : κ × ν}
    (h : p ∈ aerase m k) : p ∈ m ∧ p.1 ≠ k := by
  have := List.mem_filter.mp h
  exact ⟨this.1, by simpa using this.2⟩

theorem mem_ainsert {κ ν : Type} [DecidableEq κ] {m : List (κ × ν)} {k : κ} {v : ν} {p : κ × ν}
    (h : p ∈ ainsert m k v) : p ∈ aerase m k ∨ p = (k, v) := by
  rcases List.mem_append.mp h with h' | h'
  · exact Or.inl h'
  · exact Or.inr (by simpa using h')

theorem alookup_eq_none_of_aerase_eq_nil {κ ν : Type} [DecidableEq κ]
    {m : List (κ × ν)} {k q : κ} (h : aerase m k = []) (hq : q ≠ k) :
    alookup m q = none := by
  cases hl : alookup m q with
  | none => rfl
  | some v =>
      have hm := mem_of_alookup_eq_some hl
      have hmem : (q, v) ∈ aerase m k := List.mem_filter.mpr ⟨hm, by simpa using hq⟩
      rw [h] at hmem
      simp at hmem

/-! ### Signal lemmas -/

variable [DecidableEq Id] [DecidableEq NodeId]

theorem signal_some_def (s : Table Id NodeId R) (id : Id) (ret : FetchResult T NodeId)
    (peer : NodeId) :
    (signal s id (some ret) peer : Table Id NodeId R × List (FEffect Id T NodeId R M)) =
      (aerase s id,
        ((alookup s id).getD []).flatMap fun pr =>
          pr.2.map fun r => FEffect.respond r (some ret)) := rfl

theorem signal_some_delivers (s : Table Id NodeId R) (id : Id) (ret : FetchResult T NodeId)
    (peer q : NodeId) (r : R) (hr : r ∈ bucketOf s id q) :
    FEffect.respond r (some ret) ∈
      (signal s id (some ret) peer : Table Id NodeId R × List (FEffect Id T NodeId R M)).2 := by
  rw [signal_some_def]
  unfold bucketOf at hr
  cases hq : alookup ((alookup s id).getD []) q with
  | none => rw [hq] at hr; simp at hr
  | some bucket =>
      rw [hq] at hr
      simp only [Option.getD_some] at hr
      have hmem := mem_of_alookup_eq_some hq
      exact List.mem_flatMap.mpr ⟨(q, bucket), hmem, List.mem_map.mpr ⟨r, hr, rfl⟩⟩

theorem signal_none_effects (s : Table Id NodeId R) (id : Id) (peer : NodeId) :
    (signal s id (none : Option (FetchResult T NodeId)) peer :
        Table Id NodeId R × List (FEffect Id T NodeId R M)).2 =
      (bucketOf s id peer).map fun r => FEffect.respond r none := by
  simp only [signal]
  cases h : alookup ((alookup s id).getD []) peer with
  | none =>
      by_cases he : (aerase ((alookup s id).getD []) peer).isEmpty <;>
        simp [bucketOf, h, he]
  | some rs =>
      by_cases he : (aerase ((alookup s id).getD []) peer).isEmpty <;>
        simp [bucketOf, h, he]

theorem signal_none_lookup_ne (s : Table Id NodeId R) (id id' : Id) (peer : NodeId)
    (h : id' ≠ id) :
    alookup (signal s id (none : Option (FetchResult T NodeId)) peer :
        Table Id NodeId R × List (FEffect Id T NodeId R M)).1 id' = alookup s id' := by
  simp only [signal]
  by_cases he : (aerase ((alookup s id).getD []) peer).isEmpty
  · simp only [he, if_pos]
    exact alookup_aerase_ne s id id' h
  · simp only [he, if_neg, Bool.false_eq_true, not_false_iff]
    rw [alookup_ainsert_ne _ _ _ _ h]
    exact alookup_aerase_ne s id id' h

theorem signal_none_bucket_self (s : Table Id NodeId R) (id : Id) (peer : NodeId) :
    bucketOf (signal s id (none : Option (FetchResult T NodeId)) peer :
        Table Id NodeId R × List (FEffect Id T NodeId R M)).1 id peer = [] := by
  simp only [signal]
  by_cases he : (aerase ((alookup s id).getD []) peer).isEmpty
  · simp only [he, if_pos]
    simp [bucketOf, alookup_aerase_self, alookup_nil]
  · simp only [he, if_neg, Bool.false_eq_true, not_false_iff]
    simp [bucketOf, alookup_ainsert_self, alookup_aerase_self]

theorem signal_none_bucket_other (s : Table Id NodeId R) (id : Id) (peer q : NodeId)
    (hq : q ≠ peer) :
    bucketOf (signal s id (none : Option (FetchResult T NodeId)) peer :
        Table Id NodeId R × List (FEffect Id T NodeId R M)).1 id q = bucketOf s id q := by
  simp only [signal]
  by_cases he : (aerase ((alookup s id).getD []) peer).isEmpty
  · simp only [he, if_pos]
    have hnil : aerase ((alookup s id).getD []) peer = [] := by
      simpa [List.isEmpty_iff] using he
    have hq' : alookup ((alookup s id).getD []) q = none :=
      alookup_eq_none_of_aerase_eq_nil hnil hq
    simp [bucketOf, alookup_aerase_self, hq', alookup_nil]
  · simp only [he, if_neg, Bool.false_eq_true, not_false_iff]
    simp [bucketOf, alookup_ainsert_self, alookup_aerase_ne _ _ _ hq]

theorem signal_some_lookup_self (s : Table Id NodeId R) (id : Id)
    (ret : FetchResult T NodeId) (peer : NodeId) :
    alookup (signal s id (some ret) peer :
        Table Id NodeId R × List (FEffect Id T NodeId R M)).1 id = none := by
  rw [signal_some_def]
  exact alookup_aerase_self s id

theorem signal_some_lookup_ne (s : Table Id NodeId R) (id id' : Id)
    (ret : FetchResult T NodeId) (peer : NodeId) (h : id' ≠ id) :
    alookup (signal s id (some ret) peer :
        Table Id NodeId R × List (FEffect Id T NodeId R M)).1 id' = alookup s id' := by
  rw [signal_some_def]
  exact alookup_aerase_ne s id id' h

theorem signal_none_reinsert (s : Table Id NodeId R) (id : Id) (peer : NodeId) :
    alookup (signal s id (none : Option (FetchResult T NodeId)) peer :
        Table Id NodeId R × List (FEffect Id T NodeId R M)).1 id =
      (if (aerase ((alookup s id).getD []) peer).isEmpty then none
       else some (aerase ((alookup s id).getD []) peer)) := by
  simp only [signal]
  by_cases he : (aerase ((alookup s id).getD []) peer).isEmpty <;>
    simp [he, alookup_aerase_self, alookup_ainsert_self]

theorem signal_none_idempotent (s : Table Id NodeId R) (id : Id) (peer : NodeId)
    (habs : alookup ((alookup s id).getD []) peer = none)
    (hne : alookup s id ≠ some []) :
    (signal s id (none : Option (FetchResult T NodeId)) peer :
        Table Id NodeId R × List (FEffect Id T NodeId R M)).2 = [] ∧
      ∀ id', alookup (signal s id (none : Option (FetchResult T NodeId)) peer :
          Table Id NodeId R × List (FEffect Id T NodeId R M)).1 id' = alookup s id' := by
  constructor
  · rw [signal_none_effects]
    simp [bucketOf, habs]
  · intro id'
    by_cases hid : id' = id
    · subst hid
      rw [signal_none_reinsert]
      cases hl : alookup s id' with
      | none => simp [aerase]
      | some inner =>
          have hinner : inner ≠ [] := fun hc => hne (by rw [hl, hc])
          rw [hl] at habs
          simp only [Option.getD_some] at habs ⊢
          rw [aerase_eq_self_of_alookup_none inner peer habs]
          simp [List.isEmpty_iff, hinner]
    · exact signal_none_lookup_ne s id id' peer hid

/-! ### The no-empty-mapping invariant -/

/-- The spec's responder-table invariant: no outer entry holds an empty inner
mapping, and every stored responder sequence (bucket) is non-empty. -/
def Clean (s : Table Id NodeId R) : Prop :=
  ∀ pr ∈ s, pr.2 ≠ [] ∧ ∀ qr ∈ pr.2, qr.2 ≠ []

instance Clean.decidable [DecidableEq NodeId] [DecidableEq R] (s : Table Id NodeId R) :
    Decidable (Clean s) :=
  inferInstanceAs (Decidable (∀ pr ∈ s, pr.2 ≠ [] ∧ ∀ qr ∈ pr.2, qr.2 ≠ []))

theorem Clean_aerase {s : Table Id NodeId R} (id : Id) (hC : Clean s) :
    Clean (aerase s id) :=
  fun pr hpr => hC pr (mem_aerase hpr).1

theorem Clean_signal {s : Table Id NodeId R} (id : Id)
    (res : Option (FetchResult T NodeId)) (peer : NodeId) (hC : Clean s) :
    Clean (signal s id res peer : Table Id NodeId R × List (FEffect Id T NodeId R M)).1 := by
  cases res with
  | some ret =>
      rw [signal_some_def]
      exact Clean_aerase id hC
  | none =>
      simp only [signal]
      by_cases he : (aerase ((alookup s id).getD []) peer).isEmpty
      · simp only [he, if_pos]
        exact Clean_aerase id hC
      · simp only [he, if_neg, Bool.false_eq_true, not_false_iff]
        intro pr hpr
        rcases mem_ainsert hpr with hl | hl
        · exact hC pr (mem_aerase (mem_aerase hl).1).1
        · subst hl
          refine ⟨by simpa [List.isEmpty_iff] using he, fun qr hqr => ?_⟩
          have hqr' := (mem_aerase hqr).1
          cases hli : alookup s id with
          | none =>
              rw [hli] at hqr'
              simp at hqr'
          | some inner =>
              rw [hli] at hqr'
              simp only [Option.getD_some] at hqr'
              exact ((hC (id, inner) (mem_of_alookup_eq_some hli)).2 qr hqr')

theorem Clean_fetch {s : Table Id NodeId R} (id : Id) (peer : NodeId) (responder : R)
    (gfsE : List (FEffect Id T NodeId R M)) (hC : Clean s) :
    Clean (fetch s id peer responder gfsE).1 := by
  simp only [fetch]
  intro pr hpr
  rcases mem_ainsert hpr with hl | hl
  · exact hC pr (mem_aerase hl).1
  · subst hl
    refine ⟨by simp [ainsert], fun qr hqr => ?_⟩
    rcases mem_ainsert hqr with hq | hq
    · have hq' := (mem_aerase hq).1
      cases hli : alookup s id with
      | none =>
          rw [hli] at hq'
          simp at hq'
      | some inner =>
          rw [hli] at hq'
          simp only [Option.getD_some] at hq'
          exact ((hC (id, inner) (mem_of_alookup_eq_some hli)).2 qr hq')
    · subst hq
      simp

theorem Clean_handle_event (itemId : T → Id)
    (gfs : Id → NodeId → List (FEffect Id T NodeId R M))
    (mk : Id → Option M) (timeout : Nat) (rng : ρ)
    {s : Table Id NodeId R} (e : Event Id T NodeId R) (hC : Clean s) :
    Clean (handle_event itemId gfs mk timeout rng s e).1 := by
  cases e with
  | Fetch id peer responder => exact Clean_fetch id peer responder _ hC
  | GetFromStorageResult id peer maybeItem =>
      cases maybeItem with
      | some item => exact Clean_signal _ _ _ hC
      | none =>
          simp only [handle_event, failed_to_get_from_storage]
          cases mk id with
          | some message => exact hC
          | none => exact Clean_signal _ _ _ hC
  | GotRemotely item source =>
      cases source with
      | Peer peer => exact Clean_signal _ _ _ hC
      | Client => exact hC
  | AbsentRemotely id peer => exact Clean_signal _ _ _ hC
  | TimeoutPeer id peer => exact Clean_signal _ _ _ hC

/-! ### Responder counting and conservation -/

/-- Occurrences of a responder token in a bucket. -/
def listCount [DecidableEq R] (r : R) (l : List R) : Nat :=
  l.countP fun r' => decide (r' = r)

/-- Occurrences of a responder token in an inner (per-peer) mapping. -/
def innerCount [DecidableEq R] (r : R) (inner : List (NodeId × List R)) : Nat :=
  (inner.map fun qr => listCount r qr.2).sum

/-- Occurrences of a responder token anywhere in the responder table. -/
def tableCount [DecidableEq R] (r : R) (s : Table Id NodeId R) : Nat :=
  (s.map fun pr => innerCount r pr.2).sum

/-- Number of `respond` effects delivered to a given responder token. -/
def respondCount [DecidableEq R] (r : R) (effs : List (FEffect Id T NodeId R M)) : Nat :=
  effs.countP fun e =>
    match e with
    | FEffect.respond r' _ => decide (r' = r)
    | _ => false

/-- Number of `Fetch` events that register a given responder token. -/
def fetchCount [DecidableEq R] (r : R) (es : List (Event Id T NodeId R)) : Nat :=
  es.countP fun e =>
    match e with
    | Event.Fetch _ _ r' => decide (r' = r)
    | _ => false

/-- Key uniqueness at both levels of the table, as a `HashMap` guarantees. -/
def WF (s : Table Id NodeId R) : Prop :=
  (s.map Prod.fst).Nodup ∧ ∀ pr ∈ s, (pr.2.map Prod.fst).Nodup

theorem alookup_eq_none_of_not_mem_keys {κ ν : Type} [DecidableEq κ]
    {m : List (κ × ν)} {k : κ} (h : k ∉ m.map Prod.fst) : alookup m k = none := by
  induction m with
  | nil => rfl
  | cons p rest ih =>
      simp only [List.map_cons, List.mem_cons] at h
      push_neg at h
      have hp : ¬ p.1 = k := fun hc => h.1 hc.symm
      simp only [alookup, if_neg hp]
      exact ih h.2

theorem sumVals_aerase_some {κ ν : Type} [DecidableEq κ] (f : ν → Nat)
    {m : List (κ × ν)} {k : κ} {v : ν} (hl : alookup m k = some v)
    (hnd : (m.map Prod.fst).Nodup) :
    (m.map fun p => f p.2).sum = f v + ((aerase m k).map fun p => f p.2).sum := by
  induction m with
  | nil => simp [alookup] at hl
  | cons p rest ih =>
      simp only [List.map_cons, List.nodup_cons] at hnd
      by_cases hp : p.1 = k
      · simp only [alookup, if_pos hp] at hl
        have hrest : alookup rest k = none :=
          alookup_eq_none_of_not_mem_keys (by rw [← hp]; exact hnd.1)
        rw [show aerase (p :: rest) k = aerase rest k by
              simp [aerase, List.filter_cons, hp]]
        rw [aerase_eq_self_of_alookup_none rest k hrest]
        simp [Option.some.inj hl]
      · simp only [alookup, if_neg hp] at hl
        rw [show aerase (p :: rest) k = p :: aerase rest k by
              simp [aerase, List.filter_cons, hp]]
        simp only [List.map_cons, List.sum_cons]
        rw [ih hl hnd.2]
        omega

theorem sumVals_ainsert {κ ν : Type} [DecidableEq κ] (f : ν → Nat)
    (m : List (κ × ν)) (k : κ) (v : ν) :
    ((ainsert m k v).map fun p => f p.2).sum =
      ((aerase m k).map fun p => f p.2).sum + f v := by
  simp [ainsert]

theorem aerase_aerase {κ ν : Type} [DecidableEq κ] (m : List (κ × ν)) (k : κ) :
    aerase (aerase m k) k = aerase m k :=
  aerase_eq_self_of_alookup_none _ _ (alookup_aerase_self m k)

theorem respondCount_append [DecidableEq R] (r : R)
    (l1 l2 : List (FEffect Id T NodeId R M)) :
    respondCount r (l1 ++ l2) = respondCount r l1 + respondCount r l2 := by
  simp [respondCount, List.countP_append]

theorem respondCount_map_respond [DecidableEq R] (r : R) (l : List R)
    (x : Option (FetchResult T NodeId)) :
    respondCount r ((l.map fun r' => FEffect.respond r' x) : List (FEffect Id T NodeId R M)) =
      listCount r l := by
  simp only [respondCount, listCount, List.countP_map]
  rfl

theorem respondCount_flatMap [DecidableEq R] (r : R)
    (inner : List (NodeId × List R)) (ret : FetchResult T NodeId) :
    respondCount r ((inner.flatMap fun pr =>
        pr.2.map fun r' => FEffect.respond r' (some ret)) :
          List (FEffect Id T NodeId R M)) = innerCount r inner := by
  induction inner with
  | nil => rfl
  | cons pr rest ih =>
      simp only [List.flatMap_cons, innerCount, List.map_cons, List.sum_cons]
      rw [respondCount_append, respondCount_map_respond]
      simp only [innerCount] at ih
      rw [ih]

theorem keys_aerase_nodup {κ ν : Type} [DecidableEq κ] {m : List (κ × ν)} (k : κ)
    (h : (m.map Prod.fst).Nodup) : ((aerase m k).map Prod.fst).Nodup :=
  ((List.filter_sublist m).map Prod.fst).nodup h

theorem keys_ainsert_nodup {κ ν : Type} [DecidableEq κ] {m : List (κ × ν)} (k : κ) (v : ν)
    (h : (m.map Prod.fst).Nodup) : ((ainsert m k v).map Prod.fst).Nodup := by
  rw [ainsert, List.map_append]
  rw [List.nodup_append]
  refine ⟨keys_aerase_nodup k h, List.nodup_singleton k, ?_⟩
  intro a ha hb
  simp only [List.map_cons, List.map_nil, List.mem_singleton] at hb
  subst hb
  obtain ⟨p, hp, hfst⟩ := List.mem_map.mp ha
  exact (mem_aerase hp).2 hfst

theorem WF_aerase {s : Table Id NodeId R} (id : Id) (hWF : WF s) : WF (aerase s id) :=
  ⟨keys_aerase_nodup id hWF.1, fun pr hpr => hWF.2 pr (mem_aerase hpr).1⟩

theorem WF_signal {s : Table Id NodeId R} (id : Id)
    (res : Option (FetchResult T NodeId)) (peer : NodeId) (hWF : WF s) :
    WF (signal s id res peer : Table Id NodeId R × List (FEffect Id T NodeId R M)).1 := by
  cases res with
  | some ret =>
      rw [signal_some_def]
      exact WF_aerase id hWF
  | none =>
      simp only [signal]
      by_cases he : (aerase ((alookup s id).getD []) peer).isEmpty
      · simp only [he, if_pos]
        exact WF_aerase id hWF
      · simp only [he, if_neg, Bool.false_eq_true, not_false_iff]
        constructor
        · exact keys_ainsert_nodup id _ (WF_aerase id hWF).1
        · intro pr hpr
          rcases mem_ainsert hpr with hl | hl
          · exact hWF.2 pr (mem_aerase (mem_aerase hl).1).1
          · subst hl
            cases hli : alookup s id with
            | none =>
                simp [aerase]
            | some inner =>
                simp only [Option.getD_some]
                exact keys_aerase_nodup peer
                  (hWF.2 (id, inner) (mem_of_alookup_eq_some hli))

theorem WF_fetch {s : Table Id NodeId R} (id : Id) (peer : NodeId) (responder : R)
    (gfsE : List (FEffect Id T NodeId R M)) (hWF : WF s) :
    WF (fetch s id peer responder gfsE).1 := by
  simp only [fetch]
  constructor
  · exact keys_ainsert_nodup id _ hWF.1
  · intro pr hpr
    rcases mem_ainsert hpr with hl | hl
    · exact hWF.2 pr (mem_aerase hl).1
    · subst hl
      refine keys_ainsert_nodup peer _ ?_
      cases hli : alookup s id with
      | none => simp
      | some inner =>
          simp only [Option.getD_some]
          exact hWF.2 (id, inner) (mem_of_alookup_eq_some hli)

theorem WF_handle_event (itemId : T → Id)
    (gfs : Id → NodeId → List (FEffect Id T NodeId R M))
    (mk : Id → Option M) (timeout : Nat) (rng : ρ)
    {s : Table Id NodeId R} (e : Event Id T NodeId R) (hWF : WF s) :
    WF (handle_event itemId gfs mk timeout rng s e).1 := by
  cases e with
  | Fetch id peer responder => exact WF_fetch id peer responder _ hWF
  | GetFromStorageResult id peer maybeItem =>
      cases maybeItem with
      | some item => exact WF_signal _ _ _ hWF
      | none =>
          simp only [handle_event, failed_to_get_from_storage]
          cases mk id with
          | some message => exact hWF
          | none => exact WF_signal _ _ _ hWF
  | GotRemotely item source =>
      cases source with
      | Peer peer => exact WF_signal _ _ _ hWF
      | Client => exact hWF
  | AbsentRemotely id peer => exact WF_signal _ _ _ hWF
  | TimeoutPeer id peer => exact WF_signal _ _ _ hWF

theorem listCount_append [DecidableEq R] (r : R) (l1 l2 : List R) :
    listCount r (l1 ++ l2) = listCount r l1 + listCount r l2 := by
  simp [listCount, List.countP_append]

theorem listCount_singleton [DecidableEq R] (r x : R) :
    listCount r [x] = if x = r then 1 else 0 := by
  by_cases h : x = r <;> simp [listCount, List.countP_cons, h]

theorem tableCount_aerase_some [DecidableEq R] {s : Table Id NodeId R} {id : Id}
    {inner : List (NodeId × List R)} (r : R) (hli : alookup s id = some inner)
    (hnd : (s.map Prod.fst).Nodup) :
    tableCount r s = innerCount r inner + tableCount r (aerase s id) :=
  sumVals_aerase_some (innerCount r) hli hnd

theorem tableCount_ainsert [DecidableEq R] (r : R) (s : Table Id NodeId R) (id : Id)
    (inner : List (NodeId × List R)) :
    tableCount r (ainsert s id inner) =
      tableCount r (aerase s id) + innerCount r inner :=
  sumVals_ainsert (innerCount r) s id inner

theorem innerCount_aerase_some [DecidableEq R] {inner : List (NodeId × List R)}
    {peer : NodeId} {bucket : List R} (r : R) (hlp : alookup inner peer = some bucket)
    (hnd : (inner.map Prod.fst).Nodup) :
    innerCount r inner = listCount r bucket + innerCount r (aerase inner peer) :=
  sumVals_aerase_some (listCount r) hlp hnd

theorem innerCount_nil [DecidableEq R] (r : R) :
    innerCount r ([] : List (NodeId × List R)) = 0 := rfl

/-- `signal` conserves responders: every token removed from the table shows up
in exactly one `respond` effect. -/
theorem signal_conservation [DecidableEq R] (s : Table Id NodeId R) (id : Id)
    (res : Option (FetchResult T NodeId)) (peer : NodeId) (r : R) (hWF : WF s) :
    tableCount r (signal s id res peer :
        Table Id NodeId R × List (FEffect Id T NodeId R M)).1 +
      respondCount r (signal s id res peer :
        Table Id NodeId R × List (FEffect Id T NodeId R M)).2 = tableCount r s := by
  cases res with
  | some ret =>
      rw [signal_some_def]
      simp only
      rw [respondCount_flatMap]
      cases hli : alookup s id with
      | none =>
          rw [aerase_eq_self_of_alookup_none s id hli]
          simp [innerCount]
      | some inner =>
          have h1 := tableCount_aerase_some r hli hWF.1
          simp only [Option.getD_some]
          omega
  | none =>
      cases hli : alookup s id with
      | none =>
          simp only [signal, hli, Option.getD_none]
          rw [aerase_eq_self_of_alookup_none s id hli]
          simp [alookup_nil, aerase, respondCount]
      | some inner =>
          have hndInner : (inner.map Prod.fst).Nodup :=
            hWF.2 (id, inner) (mem_of_alookup_eq_some hli)
          have h1 := tableCount_aerase_some r hli hWF.1
          simp only [signal, hli, Option.getD_some]
          cases hlp : alookup inner peer with
          | none =>
              rw [aerase_eq_self_of_alookup_none inner peer hlp]
              by_cases hie : inner.isEmpty
              · have hnil : inner = [] := List.isEmpty_iff.mp hie
                rw [hnil] at h1
                rw [innerCount_nil] at h1
                simp only [hie, if_pos]
                simp only [respondCount, List.countP_nil, Nat.add_zero]
                omega
              · simp only [hie, if_neg, Bool.false_eq_true, not_false_iff]
                rw [show (ainsert (aerase s id) id inner : Table Id NodeId R) =
                      ainsert (aerase (aerase s id) id) id inner by rw [aerase_aerase]]
                rw [show (ainsert (aerase (aerase s id) id) id inner : Table Id NodeId R) =
                      ainsert (aerase s id) id inner by rw [aerase_aerase]]
                have h2 := tableCount_ainsert r (aerase s id) id inner
                rw [aerase_aerase] at h2
                simp only [respondCount, List.countP_nil, Nat.add_zero]
                omega
          | some bucket =>
              have h2 := innerCount_aerase_some r hlp hndInner
              by_cases hre : (aerase inner peer).isEmpty
              · have hnil : aerase inner peer = [] := List.isEmpty_iff.mp hre
                rw [hnil] at h2
                rw [innerCount_nil] at h2
                simp only [hre, if_pos]
                rw [respondCount_map_respond]
                omega
              · simp only [hre, if_neg, Bool.false_eq_true, not_false_iff]
                rw [respondCount_map_respond]
                have h3 := tableCount_ainsert r (aerase s id) id (aerase inner peer)
                rw [aerase_aerase] at h3
                omega

/-- `fetch` adds exactly the new responder token to the table. -/
theorem fetch_tableCount [DecidableEq R] (s : Table Id NodeId R) (id : Id)
    (peer : NodeId) (responder : R) (gfsE : List (FEffect Id T NodeId R M)) (r : R)
    (hWF : WF s) :
    tableCount r (fetch s id peer responder gfsE).1 =
      tableCount r s + (if responder = r then 1 else 0) := by
  simp only [fetch]
  cases hli : alookup s id with
  | none =>
      simp only [Option.getD_none]
      rw [tableCount_ainsert, aerase_eq_self_of_alookup_none s id hli]
      rw [show (ainsert ([] : List (NodeId × List R)) peer
            ((alookup ([] : List (NodeId × List R)) peer).getD [] ++ [responder])) =
          [(peer, [responder])] by simp [ainsert, aerase, alookup]]
      simp only [innerCount, List.map_cons, List.map_nil, List.sum_cons, List.sum_nil]
      rw [listCount_singleton]
      omega
  | some inner =>
      simp only [Option.getD_some]
      have hndInner : (inner.map Prod.fst).Nodup :=
        hWF.2 (id, inner) (mem_of_alookup_eq_some hli)
      have h1 := tableCount_aerase_some r hli hWF.1
      rw [tableCount_ainsert]
      have h2 := sumVals_ainsert (listCount r) inner peer
        ((alookup inner peer).getD [] ++ [responder])
      rw [listCount_append, listCount_singleton] at h2
      have h2' : innerCount r (ainsert inner peer ((alookup inner peer).getD [] ++ [responder])) =
          innerCount r (aerase inner peer) +
            (listCount r ((alookup inner peer).getD []) +
              if responder = r then 1 else 0) := h2
      rw [h2']
      cases hlp : alookup inner peer with
      | none =>
          rw [aerase_eq_self_of_alookup_none inner peer hlp]
          simp only [Option.getD_none]
          rw [show listCount r ([] : List R) = 0 from rfl]
          omega
      | some bucket =>
          have h3 := innerCount_aerase_some r hlp hndInner
          simp only [Option.getD_some]
          omega

/-- Discriminator: is this effect a responder callback? -/
def FEffect.isRespond : FEffect Id T NodeId R M → Bool
  | FEffect.respond _ _ => true
  | _ => false

/-- Discriminator: is this effect one of the three storage requests? -/
def FEffect.isStorageQuery : FEffect Id T NodeId R M → Bool
  | FEffect.getDeploysFromStorage _ _ => true
  | FEffect.getBlockFromStorage _ _ => true
  | FEffect.getBlockAtHeight _ _ => true
  | _ => false

/-- Discriminator: is this effect an outbound network message? -/
def FEffect.isSendMessage : FEffect Id T NodeId R M → Bool
  | FEffect.sendMessage _ _ => true
  | _ => false

/-- Discriminator: is this effect a timer arming? -/
def FEffect.isSetTimeout : FEffect Id T NodeId R M → Bool
  | FEffect.setTimeout _ _ _ => true
  | _ => false

theorem respondCount_eq_zero [DecidableEq R] (r : R)
    {effs : List (FEffect Id T NodeId R M)}
    (h : ∀ eff ∈ effs, eff.isRespond = false) : respondCount r effs = 0 := by
  induction effs with
  | nil => rfl
  | cons e rest ih =>
      have he := h e (List.mem_cons_self e rest)
      have hrest : ∀ eff ∈ rest, eff.isRespond = false :=
        fun eff hm => h eff (List.mem_cons.mpr (Or.inr hm))
      unfold respondCount at ih ⊢
      rw [List.countP_cons]
      cases e with
      | respond r' x => simp [FEffect.isRespond] at he
      | getDeploysFromStorage b p => simpa using ih hrest
      | getBlockFromStorage i p => simpa using ih hrest
      | getBlockAtHeight hgt p => simpa using ih hrest
      | sendMessage p m => simpa using ih hrest
      | setTimeout t i p => simpa using ih hrest

theorem fetchCount_cons [DecidableEq R] (r : R) (e : Event Id T NodeId R)
    (es : List (Event Id T NodeId R)) :
    fetchCount r (e :: es) = fetchCount r [e] + fetchCount r es := by
  simp only [fetchCount, List.countP_cons, List.countP_nil]
  omega

/-- One `handle_event` step conserves responder tokens: the table count plus
the delivered count grows exactly by the step's `Fetch` registrations. -/
theorem handle_event_conservation [DecidableEq R] (itemId : T → Id)
    (gfs : Id → NodeId → List (FEffect Id T NodeId R M))
    (mk : Id → Option M) (timeout : Nat) (rng : ρ)
    (s : Table Id NodeId R) (e : Event Id T NodeId R) (r : R) (hWF : WF s)
    (hgfs : ∀ id peer, ∀ eff ∈ gfs id peer, FEffect.isRespond eff = false) :
    tableCount r (handle_event itemId gfs mk timeout rng s e).1 +
      respondCount r (handle_event itemId gfs mk timeout rng s e).2 =
      tableCount r s + fetchCount r [e] := by
  cases e with
  | Fetch id peer responder =>
      simp only [handle_event]
      have h1 := fetch_tableCount s id peer responder (gfs id peer) r hWF
      have h2 : respondCount r (fetch s id peer responder (gfs id peer) :
          Table Id NodeId R × List (FEffect Id T NodeId R M)).2 = 0 :=
        respondCount_eq_zero r (hgfs id peer)
      have h3 : fetchCount (T := T) r [Event.Fetch id peer responder] =
          (if responder = r then 1 else 0) := by
        simp only [fetchCount, List.countP_cons, List.countP_nil]
        by_cases hc : responder = r <;> simp [hc]
      omega
  | GetFromStorageResult id peer maybeItem =>
      cases maybeItem with
      | some item =>
          simp only [handle_event, got_from_storage]
          have := signal_conservation (M := M) s (itemId item)
            (some (FetchResult.FromStorage item)) peer r hWF
          have h3 : fetchCount r [Event.GetFromStorageResult id peer
              (some item : Option T)] = 0 := rfl
          omega
      | none =>
          simp only [handle_event, failed_to_get_from_storage]
          have h3 : fetchCount r [Event.GetFromStorageResult id peer
              (none : Option T)] = 0 := rfl
          cases hmk : mk id with
          | some message =>
              simp only [respondCount, List.countP_cons, List.countP_nil]
              simp [h3]
          | none =>
              exact signal_conservation (M := M) s id
                (none : Option (FetchResult T NodeId)) peer r hWF
  | GotRemotely item source =>
      have h3 : fetchCount r ([Event.GotRemotely item source] : List (Event Id T NodeId R)) = 0 := rfl
      cases source with
      | Peer peer =>
          simp only [handle_event]
          have := signal_conservation (M := M) s (itemId item)
            (some (FetchResult.FromPeer item peer)) peer r hWF
          omega
      | Client =>
          simp only [handle_event]
          simp [respondCount, h3]
  | AbsentRemotely id peer =>
      simp only [handle_event]
      have := signal_conservation (M := M) s id
        (none : Option (FetchResult T NodeId)) peer r hWF
      have h3 : fetchCount (T := T) r [Event.AbsentRemotely id peer] = 0 := rfl
      omega
  | TimeoutPeer id peer =>
      simp only [handle_event]
      have := signal_conservation (M := M) s id
        (none : Option (FetchResult T NodeId)) peer r hWF
      have h3 : fetchCount (T := T) r [Event.TimeoutPeer id peer] = 0 := rfl
      omega

/-- Running any event sequence conserves responder tokens. -/
theorem run_conservation [DecidableEq R] (itemId : T → Id)
    (gfs : Id → NodeId → List (FEffect Id T NodeId R M))
    (mk : Id → Option M) (timeout : Nat) (rng : ρ)
    (s : Table Id NodeId R) (es : List (Event Id T NodeId R)) (r : R) (hWF : WF s)
    (hgfs : ∀ id peer, ∀ eff ∈ gfs id peer, FEffect.isRespond eff = false) :
    tableCount r (run itemId gfs mk timeout rng s es).1 +
      respondCount r (run itemId gfs mk timeout rng s es).2 =
      tableCount r s + fetchCount r es := by
  induction es generalizing s with
  | nil => simp [run, respondCount, fetchCount]
  | cons e rest ih =>
      simp only [run]
      rw [respondCount_append]
      have hstep := handle_event_conservation itemId gfs mk timeout rng s e r hWF hgfs
      have hWF' := WF_handle_event itemId gfs mk timeout rng e hWF
      have htail := ih (handle_event itemId gfs mk timeout rng s e).1 hWF'
      rw [fetchCount_cons]
      omega

/-! ### Fetch frame lemmas -/

theorem fetch_bucket_self (s : Table Id NodeId R) (id : Id) (peer : NodeId)
    (responder : R) (gfsE : List (FEffect Id T NodeId R M)) :
    bucketOf (fetch s id peer responder gfsE).1 id peer =
      bucketOf s id peer ++ [responder] := by
  simp only [fetch, bucketOf]
  rw [alookup_ainsert_self]
  simp only [Option.getD_some]
  rw [alookup_ainsert_self]
  simp

theorem fetch_bucket_other (s : Table Id NodeId R) (id : Id) (peer q : NodeId)
    (responder : R) (gfsE : List (FEffect Id T NodeId R M)) (hq : q ≠ peer) :
    bucketOf (fetch s id peer responder gfsE).1 id q = bucketOf s id q := by
  simp only [fetch, bucketOf]
  rw [alookup_ainsert_self]
  simp only [Option.getD_some]
  rw [alookup_ainsert_ne _ _ _ _ hq]

theorem fetch_lookup_ne (s : Table Id NodeId R) (id id' : Id) (peer : NodeId)
    (responder : R) (gfsE : List (FEffect Id T NodeId R M)) (hid : id' ≠ id) :
    alookup (fetch s id peer responder gfsE).1 id' = alookup s id' := by
  simp only [fetch]
  rw [alookup_ainsert_ne _ _ _ _ hid]

theorem fetch_effects (s : Table Id NodeId R) (id : Id) (peer : NodeId)
    (responder : R) (gfsE : List (FEffect Id T NodeId R M)) :
    (fetch s id peer responder gfsE).2 = gfsE := rfl

/-! ### Claim theorems -/

/-- Claim C1: for every item, every table and every peer argument, a positive
resolution — a storage hit delivered as `Some(FromStorage(item))` via
`GetFromStorageResult`, or a `GotRemotely` with source `Peer(p)` delivered as
`Some(FromPeer(item, p))` — removes the outer responder-table entry for the
item's id entirely and delivers the `Some` result, provenance preserved, to
every responder in every peer bucket under that id, regardless of which peer
each responder nominated. -/
theorem claim1_positive_resolution_drains_all_buckets
    (itemId : T → Id) (gfs : Id → NodeId → List (FEffect Id T NodeId R M))
    (mk : Id → Option M) (timeout : Nat) (rng : ρ)
    (s : Table Id NodeId R) (item : T) (peer p : NodeId) :
    (alookup (handle_event itemId gfs mk timeout rng s
        (Event.GetFromStorageResult (itemId item) peer (some item))).1
        (itemId item) = none ∧
      ∀ q r, r ∈ bucketOf s (itemId item) q →
        FEffect.respond r (some (FetchResult.FromStorage item)) ∈
          (handle_event itemId gfs mk timeout rng s
            (Event.GetFromStorageResult (itemId item) peer (some item))).2) ∧
    (alookup (handle_event itemId gfs mk timeout rng s
        (Event.GotRemotely item (Source.Peer p))).1 (itemId item) = none ∧
      ∀ q r, r ∈ bucketOf s (itemId item) q →
        FEffect.respond r (some (FetchResult.FromPeer item p)) ∈
          (handle_event itemId gfs mk timeout rng s
            (Event.GotRemotely item (Source.Peer p))).2) := by
  refine ⟨⟨?_, ?_⟩, ⟨?_, ?_⟩⟩
  · exact signal_some_lookup_self s (itemId item) (FetchResult.FromStorage item) peer
  · intro q r hr
    exact signal_some_delivers s (itemId item) (FetchResult.FromStorage item) peer q r hr
  · exact signal_some_lookup_self s (itemId item) (FetchResult.FromPeer item p) p
  · intro q r hr
    exact signal_some_delivers s (itemId item) (FetchResult.FromPeer item p) p q r hr

/-- Witness for C1: concrete table with two peer buckets under id 5; the responder
that nominated peer 2 is still delivered the storage hit reported for peer 1. -/
theorem claim1_witness :
    (11 : Nat) ∈ bucketOf ([(5, [(1, [10]), (2, [11])])] : Table Nat Nat Nat) 5 2 ∧
      FEffect.respond 11 (some (FetchResult.FromStorage ((5, 99) : Nat × Nat))) ∈
        (handle_event (Prod.fst : Nat × Nat → Nat) (fun _ _ => [])
          (fun _ => (none : Option Nat)) 3 (0 : Nat)
          ([(5, [(1, [10]), (2, [11])])] : Table Nat Nat Nat)
          (Event.GetFromStorageResult 5 1 (some ((5, 99) : Nat × Nat)))).2 :=
  ⟨by decide,
    (claim1_positive_resolution_drains_all_buckets (Prod.fst : Nat × Nat → Nat)
      (fun _ _ => []) (fun _ => (none : Option Nat)) 3 (0 : Nat)
      ([(5, [(1, [10]), (2, [11])])] : Table Nat Nat Nat)
      ((5, 99) : Nat × Nat) 1 2).1.2 2 11 (by decide)⟩

/-- Claim C3: a negative resolution `signal(id, None, peer)` delivers `None` to
exactly the responders of `table[id][peer]` in insertion order, removes that
bucket, leaves buckets of other peers under `id` and entries of other ids
unchanged, and reinserts the reduced inner mapping under `id` whenever other
peer buckets remain. -/
theorem claim3_negative_resolution_frame (s : Table Id NodeId R) (id : Id)
    (peer : NodeId) :
    ((signal s id (none : Option (FetchResult T NodeId)) peer :
        Table Id NodeId R × List (FEffect Id T NodeId R M)).2 =
      (bucketOf s id peer).map fun r => FEffect.respond r none) ∧
    bucketOf (signal s id (none : Option (FetchResult T NodeId)) peer :
        Table Id NodeId R × List (FEffect Id T NodeId R M)).1 id peer = [] ∧
    (∀ q, q ≠ peer →
      bucketOf (signal s id (none : Option (FetchResult T NodeId)) peer :
          Table Id NodeId R × List (FEffect Id T NodeId R M)).1 id q =
        bucketOf s id q) ∧
    (∀ id', id' ≠ id →
      alookup (signal s id (none : Option (FetchResult T NodeId)) peer :
          Table Id NodeId R × List (FEffect Id T NodeId R M)).1 id' =
        alookup s id') ∧
    (¬ (aerase ((alookup s id).getD []) peer).isEmpty = true →
      alookup (signal s id (none : Option (FetchResult T NodeId)) peer :
          Table Id NodeId R × List (FEffect Id T NodeId R M)).1 id =
        some (aerase ((alookup s id).getD []) peer)) := by
  refine ⟨signal_none_effects s id peer, signal_none_bucket_self s id peer,
    fun q hq => signal_none_bucket_other s id peer q hq,
    fun id' hid => signal_none_lookup_ne s id id' peer hid, fun hne => ?_⟩
  rw [signal_none_reinsert, if_neg hne]

/-- Witness for C3: draining `(5, peer 1)` keeps the peer-2 bucket reinserted
under id 5 and leaves id 7 untouched. -/
theorem claim3_witness :
    (2 : Nat) ≠ 1 ∧
      bucketOf (signal ([(5, [(1, [10]), (2, [11])]), (7, [(1, [12])])] : Table Nat Nat Nat)
          5 (none : Option (FetchResult (Nat × Nat) Nat)) 1 :
          Table Nat Nat Nat × List (FEffect Nat (Nat × Nat) Nat Nat Nat)).1 5 2 =
        bucketOf ([(5, [(1, [10]), (2, [11])]), (7, [(1, [12])])] : Table Nat Nat Nat) 5 2 :=
  ⟨by decide,
    (claim3_negative_resolution_frame
      ([(5, [(1, [10]), (2, [11])]), (7, [(1, [12])])] : Table Nat Nat Nat)
      5 1).2.2.1 2 (by decide)⟩

/-- Claim C4: on a table satisfying the no-empty-mappings invariant, a negative
signal for an absent bucket (for example after an earlier `AbsentRemotely`
already drained it and the armed timer fires later) delivers to no responder
and leaves every table entry as it was. -/
theorem claim4_negative_signal_idempotent (s : Table Id NodeId R) (id : Id)
    (peer : NodeId) (hclean : Clean s)
    (habs : alookup ((alookup s id).getD []) peer = none) :
    (signal s id (none : Option (FetchResult T NodeId)) peer :
        Table Id NodeId R × List (FEffect Id T NodeId R M)).2 = [] ∧
      ∀ id', alookup (signal s id (none : Option (FetchResult T NodeId)) peer :
          Table Id NodeId R × List (FEffect Id T NodeId R M)).1 id' = alookup s id' := by
  refine signal_none_idempotent s id peer habs ?_
  intro hc
  exact (hclean (id, []) (mem_of_alookup_eq_some hc)).1 rfl

/-- Witness for C4: signalling peer 3 (no bucket) under id 1 is a no-op. -/
theorem claim4_witness :
    ((signal ([(1, [(2, [5])])] : Table Nat Nat Nat) 1
        (none : Option (FetchResult (Nat × Nat) Nat)) 3 :
        Table Nat Nat Nat × List (FEffect Nat (Nat × Nat) Nat Nat Nat)).2 = [] ∧
      ∀ id', alookup (signal ([(1, [(2, [5])])] : Table Nat Nat Nat) 1
          (none : Option (FetchResult (Nat × Nat) Nat)) 3 :
          Table Nat Nat Nat × List (FEffect Nat (Nat × Nat) Nat Nat Nat)).1 id' =
        alookup ([(1, [(2, [5])])] : Table Nat Nat Nat) id') :=
  claim4_negative_signal_idempotent ([(1, [(2, [5])])] : Table Nat Nat Nat) 1 3
    (by decide) (by decide)

/-- Claim C5: the empty table satisfies the no-empty-mappings invariant, and handling
any single event from a table satisfying it yields a table that still satisfies
it: no empty inner mapping, no outer entry with an empty inner mapping, and
every stored responder sequence non-empty. -/
theorem claim5_no_empty_mappings_invariant :
    Clean ([] : Table Id NodeId R) ∧
      ∀ (itemId : T → Id) (gfs : Id → NodeId → List (FEffect Id T NodeId R M))
        (mk : Id → Option M) (timeout : Nat) (rng : ρ) (s : Table Id NodeId R)
        (e : Event Id T NodeId R), Clean s →
          Clean (handle_event itemId gfs mk timeout rng s e).1 := by
  constructor
  · intro pr hpr
    simp at hpr
  · intro itemId gfs mk timeout rng s e hC
    exact Clean_handle_event itemId gfs mk timeout rng e hC

/-- Witness for C5: one `Fetch` step from the empty table keeps the invariant. -/
theorem claim5_witness :
    Clean (handle_event (Prod.fst : Nat × Nat → Nat)
      (fun _ _ => ([] : List (FEffect Nat (Nat × Nat) Nat Nat Nat)))
      (fun _ => (none : Option Nat)) 0 (0 : Nat) ([] : Table Nat Nat Nat)
      (Event.Fetch 1 2 3)).1 :=
  (claim5_no_empty_mappings_invariant).2 (Prod.fst : Nat × Nat → Nat)
    (fun _ _ => ([] : List (FEffect Nat (Nat × Nat) Nat Nat Nat)))
    (fun _ => (none : Option Nat)) 0 (0 : Nat) ([] : Table Nat Nat Nat)
    (Event.Fetch 1 2 3) (by decide)

/-- Claim C8: handling `AbsentRemotely { id, peer }` and `TimeoutPeer { id, peer }`
produce identical successor states and identical effect lists, both delivering
`None` to exactly the `table[id][peer]` bucket. -/
theorem claim8_absent_equals_timeout (itemId : T → Id)
    (gfs : Id → NodeId → List (FEffect Id T NodeId R M))
    (mk : Id → Option M) (timeout : Nat) (rng : ρ)
    (s : Table Id NodeId R) (id : Id) (peer : NodeId) :
    handle_event itemId gfs mk timeout rng s (Event.AbsentRemotely id peer) =
      handle_event itemId gfs mk timeout rng s (Event.TimeoutPeer id peer) ∧
    (handle_event itemId gfs mk timeout rng s (Event.AbsentRemotely id peer)).2 =
      (bucketOf s id peer).map fun r => FEffect.respond r none :=
  ⟨rfl, signal_none_effects s id peer⟩

/-- Claim C10: `handle_event` ignores the supplied random-number generator: runs with
any two generator states (even of different types) produce identical successor
states and identical effect lists, and a client-sourced `GotRemotely` produces
no effects and leaves the table unchanged. -/
theorem claim10_handle_event_rng_independent {σ : Type} (itemId : T → Id)
    (gfs : Id → NodeId → List (FEffect Id T NodeId R M))
    (mk : Id → Option M) (timeout : Nat) (rng1 : ρ) (rng2 : σ)
    (s : Table Id NodeId R) (e : Event Id T NodeId R) :
    handle_event itemId gfs mk timeout rng1 s e =
      handle_event itemId gfs mk timeout rng2 s e ∧
    ∀ item, handle_event itemId gfs mk timeout rng1 s
        (Event.GotRemotely item Source.Client) = (s, []) :=
  ⟨rfl, fun _ => rfl⟩

/-- Claim C6: on a storage miss, if the `GetRequest` wire message is constructed the
effects are exactly a send of that message to the nominated peer followed by
arming the peer timeout, with the table unchanged; if construction fails, only
the `(id, peer)` bucket is signalled `None`, no message is sent; a timer is
armed if and only if construction succeeds. -/
theorem claim6_storage_miss_message_paths (mk : Id → Option M) (timeout : Nat)
    (s : Table Id NodeId R) (id : Id) (peer : NodeId) :
    (∀ msg, mk id = some msg →
      (failed_to_get_from_storage mk timeout s id peer :
          Table Id NodeId R × List (FEffect Id T NodeId R M)) =
        (s, [FEffect.sendMessage peer msg, FEffect.setTimeout timeout id peer])) ∧
    (mk id = none →
      (failed_to_get_from_storage mk timeout s id peer :
          Table Id NodeId R × List (FEffect Id T NodeId R M)).2 =
        ((bucketOf s id peer).map fun r => FEffect.respond r none) ∧
      bucketOf (failed_to_get_from_storage mk timeout s id peer :
          Table Id NodeId R × List (FEffect Id T NodeId R M)).1 id peer = [] ∧
      (∀ q, q ≠ peer →
        bucketOf (failed_to_get_from_storage mk timeout s id peer :
            Table Id NodeId R × List (FEffect Id T NodeId R M)).1 id q =
          bucketOf s id q) ∧
      (∀ id', id' ≠ id →
        alookup (failed_to_get_from_storage mk timeout s id peer :
            Table Id NodeId R × List (FEffect Id T NodeId R M)).1 id' =
          alookup s id') ∧
      ∀ eff ∈ (failed_to_get_from_storage mk timeout s id peer :
          Table Id NodeId R × List (FEffect Id T NodeId R M)).2,
        FEffect.isSendMessage eff = false ∧ FEffect.isSetTimeout eff = false) ∧
    ((∃ eff ∈ (failed_to_get_from_storage mk timeout s id peer :
        Table Id NodeId R × List (FEffect Id T NodeId R M)).2,
      FEffect.isSetTimeout eff = true) ↔ (mk id).isSome = true) := by
  cases hmk : mk id with
  | some msg =>
      refine ⟨?_, ?_, ?_⟩
      · intro msg' hmsg
        cases hmsg
        simp [failed_to_get_from_storage, hmk]
      · intro hnone
        cases hnone
      · constructor
        · intro _
          rfl
        · intro _
          refine ⟨FEffect.setTimeout timeout id peer, ?_, rfl⟩
          simp [failed_to_get_from_storage, hmk]
  | none =>
      refine ⟨?_, ?_, ?_⟩
      · intro msg hmsg
        cases hmsg
      · intro _
        have heq : (failed_to_get_from_storage mk timeout s id peer :
            Table Id NodeId R × List (FEffect Id T NodeId R M)) =
            signal s id (none : Option (FetchResult T NodeId)) peer := by
          simp [failed_to_get_from_storage, hmk]
        rw [heq]
        refine ⟨signal_none_effects s id peer, signal_none_bucket_self s id peer,
          fun q hq => signal_none_bucket_other s id peer q hq,
          fun id' hid => signal_none_lookup_ne s id id' peer hid, ?_⟩
        intro eff heff
        rw [signal_none_effects] at heff
        obtain ⟨r, _, rfl⟩ := List.mem_map.mp heff
        exact ⟨rfl, rfl⟩
      · constructor
        · intro ⟨eff, heff, htrue⟩
          have heq : (failed_to_get_from_storage mk timeout s id peer :
              Table Id NodeId R × List (FEffect Id T NodeId R M)) =
              signal s id (none : Option (FetchResult T NodeId)) peer := by
            simp [failed_to_get_from_storage, hmk]
          rw [heq, signal_none_effects] at heff
          obtain ⟨r, _, rfl⟩ := List.mem_map.mp heff
          cases htrue
        · intro hfalse
          cases hfalse

/-- Witness for C6: with a constructor that always fails, no timer is armed and
the peer bucket is drained. -/
theorem claim6_witness :
    bucketOf (failed_to_get_from_storage (fun _ => (none : Option Nat)) 4
        ([(1, [(2, [5])])] : Table Nat Nat Nat) 1 2 :
        Table Nat Nat Nat × List (FEffect Nat (Nat × Nat) Nat Nat Nat)).1 1 2 = [] :=
  ((claim6_storage_miss_message_paths (fun _ => (none : Option Nat)) 4
    ([(1, [(2, [5])])] : Table Nat Nat Nat) 1 2).2.1 rfl).2.1

/-- Claim C7: handling `Fetch { id, peer, responder }` with any of the three per-kind
storage adapters appends the responder at the end of `table[id][peer]`
(creating outer and inner entries on demand, preserving FIFO order), leaves
every other bucket and id unchanged, and emits exactly one effect: a storage
query — no network send, no timer, no responder callback. -/
theorem claim7_fetch_appends_and_queries_storage (itemId : T → Id)
    (gfs : Id → NodeId → List (FEffect Id T NodeId R M))
    (mk : Id → Option M) (timeout : Nat) (rng : ρ)
    (s : Table Id NodeId R) (id : Id) (peer : NodeId) (responder : R)
    (hgfs : gfs = (deployGetFromStorage : Id → NodeId → List (FEffect Id T NodeId R M)) ∨
      gfs = (blockGetFromStorage : Id → NodeId → List (FEffect Id T NodeId R M)) ∨
      gfs = (blockByHeightGetFromStorage : Id → NodeId → List (FEffect Id T NodeId R M))) :
    bucketOf (handle_event itemId gfs mk timeout rng s
        (Event.Fetch id peer responder)).1 id peer =
      bucketOf s id peer ++ [responder] ∧
    (∀ q, q ≠ peer →
      bucketOf (handle_event itemId gfs mk timeout rng s
          (Event.Fetch id peer responder)).1 id q = bucketOf s id q) ∧
    (∀ id', id' ≠ id →
      alookup (handle_event itemId gfs mk timeout rng s
          (Event.Fetch id peer responder)).1 id' = alookup s id') ∧
    ∃ q, (handle_event itemId gfs mk timeout rng s
        (Event.Fetch id peer responder)).2 = [q] ∧
      FEffect.isStorageQuery q = true ∧ FEffect.isRespond q = false ∧
      FEffect.isSendMessage q = false ∧ FEffect.isSetTimeout q = false := by
  refine ⟨fetch_bucket_self s id peer responder (gfs id peer),
    fun q hq => fetch_bucket_other s id peer q responder (gfs id peer) hq,
    fun id' hid => fetch_lookup_ne s id id' peer responder (gfs id peer) hid, ?_⟩
  rcases hgfs with h | h | h <;> subst h
  · exact ⟨FEffect.getDeploysFromStorage [id] peer, rfl, rfl, rfl, rfl, rfl⟩
  · exact ⟨FEffect.getBlockFromStorage id peer, rfl, rfl, rfl, rfl, rfl⟩
  · exact ⟨FEffect.getBlockAtHeight id peer, rfl, rfl, rfl, rfl, rfl⟩

/-- Witness for C7: a `Fetch` through the deploy adapter appends responder 7 to an
existing bucket. -/
theorem claim7_witness :
    bucketOf (handle_event (Prod.fst : Nat × Nat → Nat)
        (deployGetFromStorage : Nat → Nat → List (FEffect Nat (Nat × Nat) Nat Nat Nat))
        (fun _ => (none : Option Nat)) 0 (0 : Nat)
        ([(1, [(2, [5])])] : Table Nat Nat Nat) (Event.Fetch 1 2 7)).1 1 2 =
      [5, 7] :=
  (claim7_fetch_appends_and_queries_storage (Prod.fst : Nat × Nat → Nat)
    (deployGetFromStorage : Nat → Nat → List (FEffect Nat (Nat × Nat) Nat Nat Nat))
    (fun _ => (none : Option Nat)) 0 (0 : Nat)
    ([(1, [(2, [5])])] : Table Nat Nat Nat) 1 2 7 (Or.inl rfl)).1

/-- Claim C9: the deploy adapter requests a batch holding exactly the one id, and its
result continuation succeeds (the batch-size assertion is unreachable) exactly
when storage returns one optional deploy per requested id, folding that single
positional answer into `GetFromStorageResult`. -/
theorem claim9_deploy_single_batch_assertion (id : Id) (peer : NodeId) :
    (deployGetFromStorage id peer : List (FEffect Id T NodeId R M)) =
      [FEffect.getDeploysFromStorage [id] peer] ∧
    ([id] : List Id).length = 1 ∧
    ∀ (results : List (Option T)), results.length = ([id] : List Id).length →
      (deployStorageResultToEvent id peer results : Option (Event Id T NodeId R)) =
        some (Event.GetFromStorageResult id peer (results.getD 0 none)) := by
  refine ⟨rfl, rfl, ?_⟩
  intro results h
  cases results with
  | nil => simp at h
  | cons m rest =>
      cases rest with
      | nil => rfl
      | cons m' rest' => simp at h

/-- Witness for C9: a singleton result vector is folded into the event for the
requested id. -/
theorem claim9_witness :
    ([some ((1, 2) : Nat × Nat)] : List (Option (Nat × Nat))).length =
      ([1] : List Nat).length ∧
    (deployStorageResultToEvent 1 7 [some ((1, 2) : Nat × Nat)] :
        Option (Event Nat (Nat × Nat) Nat Nat)) =
      some (Event.GetFromStorageResult 1 7 (some ((1, 2) : Nat × Nat))) :=
  ⟨rfl, (claim9_deploy_single_batch_assertion (M := Nat) 1 7).2.2
    [some ((1, 2) : Nat × Nat)] rfl⟩

/-- Claim C2: starting from the empty table, for any event sequence in which a
responder token is registered by at most one `Fetch`, the number of deliveries
to it plus its pending occurrences equals its registrations (conservation), it
is never delivered to twice, and while it is still pending a single
`TimeoutPeer` event for its bucket delivers to it — every delivery being an
`Option<FetchResult>` `respond` effect, the only channel to responders. -/
theorem claim2_exactly_once_delivery [DecidableEq R] (itemId : T → Id)
    (gfs : Id → NodeId → List (FEffect Id T NodeId R M))
    (mk : Id → Option M) (timeout : Nat) (rng : ρ)
    (es : List (Event Id T NodeId R)) (r : R)
    (hgfs : ∀ id peer, ∀ eff ∈ gfs id peer, FEffect.isRespond eff = false)
    (hr : fetchCount r es ≤ 1) :
    respondCount r (run itemId gfs mk timeout rng ([] : Table Id NodeId R) es).2 +
        tableCount r (run itemId gfs mk timeout rng ([] : Table Id NodeId R) es).1 =
      fetchCount r es ∧
    respondCount r (run itemId gfs mk timeout rng ([] : Table Id NodeId R) es).2 ≤ 1 ∧
    ∀ id peer,
      r ∈ bucketOf (run itemId gfs mk timeout rng ([] : Table Id NodeId R) es).1 id peer →
        FEffect.respond r (none : Option (FetchResult T NodeId)) ∈
          (handle_event itemId gfs mk timeout rng
            (run itemId gfs mk timeout rng ([] : Table Id NodeId R) es).1
            (Event.TimeoutPeer id peer)).2 := by
  have hWF0 : WF ([] : Table Id NodeId R) := ⟨List.nodup_nil, by intro pr h; simp at h⟩
  have hcons := run_conservation itemId gfs mk timeout rng
    ([] : Table Id NodeId R) es r hWF0 hgfs
  have h0 : tableCount r ([] : Table Id NodeId R) = 0 := rfl
  refine ⟨by omega, by omega, ?_⟩
  intro id peer hmem
  show FEffect.respond r (none : Option (FetchResult T NodeId)) ∈
    (signal (run itemId gfs mk timeout rng ([] : Table Id NodeId R) es).1 id
      (none : Option (FetchResult T NodeId)) peer :
      Table Id NodeId R × List (FEffect Id T NodeId R M)).2
  rw [signal_none_effects]
  exact List.mem_map.mpr ⟨r, hmem, rfl⟩

/-- Witness for C2: a lone `Fetch` registering responder 7 satisfies conservation. -/
theorem claim2_witness :
    respondCount 7 (run (Prod.fst : Nat × Nat → Nat)
        (fun _ _ => ([] : List (FEffect Nat (Nat × Nat) Nat Nat Nat)))
        (fun _ => (none : Option Nat)) 0 (0 : Nat) ([] : Table Nat Nat Nat)
        [Event.Fetch 1 2 7]).2 +
      tableCount 7 (run (Prod.fst : Nat × Nat → Nat)
        (fun _ _ => ([] : List (FEffect Nat (Nat × Nat) Nat Nat Nat)))
        (fun _ => (none : Option Nat)) 0 (0 : Nat) ([] : Table Nat Nat Nat)
        [Event.Fetch 1 2 7]).1 = fetchCount (T := Nat × Nat) 7 [Event.Fetch 1 2 7] :=
  (claim2_exactly_once_delivery (Prod.fst : Nat × Nat → Nat)
    (fun _ _ => ([] : List (FEffect Nat (Nat × Nat) Nat Nat Nat)))
    (fun _ => (none : Option Nat)) 0 (0 : Nat) [Event.Fetch 1 2 7] 7
    (by intro id peer eff h; simp at h) (by decide)).1

end CasperFetcher
